import Mathlib

/-!
A shallow embedding of the ForceAtlas2 layout engine of this repository
(fa2util.py and forceatlas2.py), together with proofs about its force
kernels, Barnes-Hut region tree, adaptive speed controller and driver.

Modelling conventions:
* Real numbers are modelled by exact rationals.
* The only transcendental operation, math.sqrt, is passed to every
  definition as an explicit function parameter `sq`; theorems either
  quantify over it or instantiate it with `sqrtQ`, an exact rational
  square root used at concrete perfect-square inputs.
* Python float division raises ZeroDivisionError when the denominator is
  zero; divisions whose denominator can be zero in a reachable state are
  modelled with `pydiv`, which returns an explicit error.  Divisions that
  sit behind a positivity guard in the source (for example the factor in
  linGravity) use total rational division.
* Python mutates shared Node objects held in one list; the embedding
  threads the node list as explicit state and addresses nodes by index.
-/

namespace FA2

/-- Integer square root (largest k with k * k <= n), written so that the
kernel can evaluate it by plain structural reduction. -/
def natSqrt (n : ℕ) : ℕ :=
  ((List.range (n + 1)).filter fun k => k * k ≤ n).foldl max 0

/-- Exact rational stand-in for math.sqrt: exact on perfect squares,
nonnegative everywhere, zero exactly on nonpositive inputs.  Used to
instantiate the `sq` parameter of the engine at concrete inputs. -/
def sqrtQ (q : ℚ) : ℚ := (natSqrt q.num.toNat : ℚ) / (natSqrt q.den : ℚ)

/-- Stand-in for the Python pow call used when edgeWeightInfluence is
neither 0 nor 1; no claim evaluates it. -/
def powQ (a b : ℚ) : ℚ := a ^ b.num.toNat

/-- Python float division: raises ZeroDivisionError on a zero denominator. -/
def pydiv (a b : ℚ) : Except String ℚ :=
  if b = 0 then .error "ZeroDivisionError" else .ok (a / b)

/-- fa2util.Node: mutable simulation state of one node.  The constructor
zeroes every field. -/
structure Node where
  mass : ℚ
  old_dx : ℚ
  old_dy : ℚ
  dx : ℚ
  dy : ℚ
  x : ℚ
  y : ℚ
  size : ℚ
deriving DecidableEq

/-- The all-zero Node produced by the fa2util.Node constructor. -/
def Node.zero : Node := ⟨0, 0, 0, 0, 0, 0, 0, 0⟩

/-- fa2util.Edge: an index pair into the node list plus a weight. -/
structure Edge where
  node1 : ℕ
  node2 : ℕ
  weight : ℚ
deriving DecidableEq

/-- fa2util.linRepulsion: pairwise repulsion; returns the updated pair
(n1, n2).  The source guards the factor with distance > 0, steps to a
constant 100x factor when anticollision makes the distance negative, and
returns unchanged nodes when the distance is exactly 0. -/
def linRepulsion (sq : ℚ → ℚ) (n1 n2 : Node) (coefficient : ℚ)
    (anticollision : Bool) : Node × Node :=
  let xDist := n1.x - n2.x
  let yDist := n1.y - n2.y
  let distance0 := sq (xDist * xDist + yDist * yDist)
  let distance := if anticollision then distance0 - (n1.size + n2.size) else distance0
  if 0 < distance then
    let factor := coefficient * n1.mass * n2.mass / distance ^ 2
    ({ n1 with dx := n1.dx + xDist * factor, dy := n1.dy + yDist * factor },
     { n2 with dx := n2.dx - xDist * factor, dy := n2.dy - yDist * factor })
  else if distance < 0 then
    let factor := 100 * coefficient * n1.mass * n2.mass
    ({ n1 with dx := n1.dx + xDist * factor, dy := n1.dy + yDist * factor },
     { n2 with dx := n2.dx - xDist * factor, dy := n2.dy - yDist * factor })
  else
    (n1, n2)

/-- fa2util.linGravity: weak gravity toward the origin; skipped when the
distance to the origin is 0 (the division by distance is guarded). -/
def linGravity (sq : ℚ → ℚ) (g : ℚ) (n : Node) : Node :=
  let xDist := n.x
  let yDist := n.y
  let distance := sq (xDist * xDist + yDist * yDist)
  if 0 < distance then
    let factor := n.mass * g / distance
    { n with dx := n.dx - xDist * factor, dy := n.dy - yDist * factor }
  else n

/-- fa2util.strongGravity: distance-independent gravity; applied only when
both coordinates are nonzero.  The factor uses the coefficient argument,
whose Python default is 0. -/
def strongGravity (g coefficient : ℚ) (n : Node) : Node :=
  let xDist := n.x
  let yDist := n.y
  if xDist ≠ 0 ∧ yDist ≠ 0 then
    let factor := coefficient * n.mass * g
    { n with dx := n.dx - xDist * factor, dy := n.dy - yDist * factor }
  else n

/-- fa2util.linAttraction: spring attraction along an edge; with
anticollision off the distance is the constant 1, so the update always
fires.  The division by n1.mass in the distributed mode is guarded in the
engine by mass = 1 + degree >= 1. -/
def linAttraction (sq : ℚ → ℚ) (n1 n2 : Node) (e : ℚ)
    (distributedAttraction : Bool) (coefficient : ℚ)
    (anticollision : Bool) : Node × Node :=
  let xDist := n1.x - n2.x
  let yDist := n1.y - n2.y
  let distance := if anticollision then
      sq (xDist * xDist + yDist * yDist) - n1.size - n2.size
    else 1
  if 0 < distance then
    let factor := if distributedAttraction then
        -coefficient * e / n1.mass
      else -coefficient * e
    ({ n1 with dx := n1.dx + xDist * factor, dy := n1.dy + yDist * factor },
     { n2 with dx := n2.dx - xDist * factor, dy := n2.dy - yDist * factor })
  else
    (n1, n2)

/-- Apply linRepulsion to the nodes stored at indices i and j, writing
both results back (the Python kernel mutates both shared objects). -/
def updatePair (sq : ℚ → ℚ) (coefficient : ℚ) (anticollision : Bool)
    (st : List Node) (i j : ℕ) : List Node :=
  let p := linRepulsion sq (st.getD i Node.zero) (st.getD j Node.zero)
    coefficient anticollision
  (st.set i p.1).set j p.2

/-- Apply linAttraction to the nodes stored at indices i and j. -/
def updateAttractionPair (sq : ℚ → ℚ) (st : List Node) (i j : ℕ) (e : ℚ)
    (distributedAttraction : Bool) (coefficient : ℚ) : List Node :=
  let p := linAttraction sq (st.getD i Node.zero) (st.getD j Node.zero) e
    distributedAttraction coefficient false
  (st.set i p.1).set j p.2

/-- The inner loop of fa2util.apply_repulsion: visits the elements of
`nodes` in order, breaking as soon as the countdown j reaches 0, and
records the pair handed to linRepulsion at each step. -/
def repulsionInnerTrace (n1 : Node) : List Node → ℕ → List (Node × Node)
  | _, 0 => []
  | [], _ + 1 => []
  | n2 :: rest, j + 1 => (n1, n2) :: repulsionInnerTrace n1 rest j

/-- The outer loop of fa2util.apply_repulsion: the element at position i
runs the inner loop with countdown i over the whole list. -/
def repulsionOuterTrace (all : List Node) : List Node → ℕ → List (Node × Node)
  | [], _ => []
  | n1 :: rest, i => repulsionInnerTrace n1 all i ++ repulsionOuterTrace all rest (i + 1)

/-- The sequence of (n1, n2) arguments that fa2util.apply_repulsion hands
to linRepulsion, in invocation order. -/
def apply_repulsion_trace (nodes : List Node) : List (Node × Node) :=
  repulsionOuterTrace nodes nodes 0

/-- State-passing form of fa2util.apply_repulsion: the node at position i
is paired with the nodes at positions 0..i-1, in order (the invocation
structure is apply_repulsion_trace). -/
def apply_repulsion (sq : ℚ → ℚ) (coefficient : ℚ) (nodes : List Node) : List Node :=
  (List.range nodes.length).foldl
    (fun st i => (List.range i).foldl
      (fun st2 j => updatePair sq coefficient false st2 i j) st)
    nodes

/-- fa2util.apply_gravity.  In the strong branch the source calls
strongGravity(n, gravity) and leaves the coefficient at its Python
default 0. -/
def apply_gravity (sq : ℚ → ℚ) (nodes : List Node) (gravity : ℚ)
    (useStrongGravity : Bool) : List Node :=
  if useStrongGravity then
    nodes.map (strongGravity gravity 0)
  else
    nodes.map (linGravity sq gravity)

/-- fa2util.apply_attraction: three loops over the edges selected by the
edgeWeightInfluence optimization (0, 1, or a pow call per edge). -/
def apply_attraction (sq : ℚ → ℚ) (powf : ℚ → ℚ → ℚ) (nodes : List Node)
    (edges : List Edge) (distributedAttraction : Bool)
    (coefficient edgeWeightInfluence : ℚ) : List Node :=
  if edgeWeightInfluence = 0 then
    edges.foldl (fun st e =>
      updateAttractionPair sq st e.node1 e.node2 1 distributedAttraction coefficient) nodes
  else if edgeWeightInfluence = 1 then
    edges.foldl (fun st e =>
      updateAttractionPair sq st e.node1 e.node2 e.weight distributedAttraction coefficient) nodes
  else
    edges.foldl (fun st e =>
      updateAttractionPair sq st e.node1 e.node2 (powf e.weight edgeWeightInfluence)
        distributedAttraction coefficient) nodes

/-- fa2util.Region: the Barnes-Hut quadtree node.  Member nodes are kept
as indices into the shared node list (Python stores references into the
same list). -/
inductive Region where
  | mk (mass massCenterX massCenterY size : ℚ)
       (nodeIdx : List ℕ) (subregions : List Region)

/-- Aggregate mass of a Region. -/
def Region.mass : Region → ℚ
  | .mk m _ _ _ _ _ => m

/-- x coordinate of a Region's center of mass. -/
def Region.massCenterX : Region → ℚ
  | .mk _ cx _ _ _ _ => cx

/-- y coordinate of a Region's center of mass. -/
def Region.massCenterY : Region → ℚ
  | .mk _ _ cy _ _ _ => cy

/-- Extent of a Region (twice the largest member distance to the center). -/
def Region.size : Region → ℚ
  | .mk _ _ _ s _ _ => s

/-- Indices of the member nodes of a Region. -/
def Region.nodeIdx : Region → List ℕ
  | .mk _ _ _ _ idxs _ => idxs

/-- Child Regions. -/
def Region.subregions : Region → List Region
  | .mk _ _ _ _ _ subs => subs

/-- Region(nodes) followed by buildSubRegions(), fused into one recursive
build (the Python constructor runs updateMassAndGeometry, and every
subregion created by buildSubRegions has buildSubRegions called on it).
With one member or none, the constructor defaults (mass 0, centers 0,
size 0) are kept and updateMassAndGeometry does nothing, because its
guard is len(nodes) > 1.  The division producing the mass center is exact
rational division; the engine only builds regions over nodes of mass
1 + degree >= 1, so the denominator is positive in every reachable call
(Python would raise ZeroDivisionError at total mass 0). -/
def buildRegion (sq : ℚ → ℚ) (st : List Node) (idxs : List ℕ) : Region :=
  if h : 1 < idxs.length then
    let getN := fun i => st.getD i Node.zero
    let mass := idxs.foldl (fun acc i => acc + (getN i).mass) 0
    let massSumX := idxs.foldl (fun acc i => acc + (getN i).x * (getN i).mass) 0
    let massSumY := idxs.foldl (fun acc i => acc + (getN i).y * (getN i).mass) 0
    let massCenterX := massSumX / mass
    let massCenterY := massSumY / mass
    let size := idxs.foldl (fun acc i =>
      max acc (2 * sq (((getN i).x - massCenterX) ^ 2 + ((getN i).y - massCenterY) ^ 2))) 0
    let leftNodes := idxs.filter fun i => decide ((getN i).x < massCenterX)
    let rightNodes := idxs.filter fun i => !decide ((getN i).x < massCenterX)
    let topleftNodes := leftNodes.filter fun i => decide ((getN i).y < massCenterY)
    let bottomleftNodes := leftNodes.filter fun i => !decide ((getN i).y < massCenterY)
    let toprightNodes := rightNodes.filter fun i => decide ((getN i).y < massCenterY)
    let bottomrightNodes := rightNodes.filter fun i => !decide ((getN i).y < massCenterY)
    let sub1 : List Region :=
      if 0 < topleftNodes.length then
        if h1 : topleftNodes.length < idxs.length then [buildRegion sq st topleftNodes]
        else topleftNodes.map fun i => buildRegion sq st [i]
      else []
    let sub2 : List Region :=
      if 0 < bottomleftNodes.length then
        if h2 : bottomleftNodes.length < idxs.length then [buildRegion sq st bottomleftNodes]
        else bottomleftNodes.map fun i => buildRegion sq st [i]
      else []
    let sub3 : List Region :=
      if 0 < toprightNodes.length then
        if h3 : toprightNodes.length < idxs.length then [buildRegion sq st toprightNodes]
        else toprightNodes.map fun i => buildRegion sq st [i]
      else []
    let sub4 : List Region :=
      if 0 < bottomrightNodes.length then
        if h4 : bottomrightNodes.length < idxs.length then [buildRegion sq st bottomrightNodes]
        else bottomrightNodes.map fun i => buildRegion sq st [i]
      else []
    Region.mk mass massCenterX massCenterY size idxs (sub1 ++ sub2 ++ sub3 ++ sub4)
  else
    Region.mk 0 0 0 0 idxs []
termination_by idxs.length
decreasing_by
  all_goals first
    | exact h1
    | exact h2
    | exact h3
    | exact h4
    | (simp only [List.length_singleton]; exact h)

/-- fa2util.linRepulsion_region: repulsion of a node against a Region's
aggregate mass and center, applied to the node only.  No square root is
taken: the squared distance is used directly and guards the division. -/
def linRepulsion_region (n : Node) (r : Region) (coefficient : ℚ) : Node :=
  let xDist := n.x - r.massCenterX
  let yDist := n.y - r.massCenterY
  let distance2 := xDist * xDist + yDist * yDist
  if 0 < distance2 then
    let factor := coefficient * n.mass * r.mass / distance2
    { n with dx := n.dx + xDist * factor, dy := n.dy + yDist * factor }
  else n

/-- One invocation of a repulsion kernel recorded during a Region.applyForce
traversal: either a pairwise linRepulsion against the single node of a
leaf, or a linRepulsion_region against an aggregated region. -/
inductive RepCall where
  | pair (queryIdx leafIdx : ℕ)
  | region (queryIdx : ℕ) (massCenterX massCenterY : ℚ)
deriving DecidableEq

mutual

/-- Region.applyForce for the query node at index i: on a region with
fewer than two member nodes, linRepulsion against self.nodes[0]; otherwise
the Barnes-Hut test decides between one aggregated linRepulsion_region and
recursing into every subregion.  Returns the updated node list together
with the kernel invocations, in order. -/
def applyForceAux (sq : ℚ → ℚ) (st : List Node) (r : Region) (i : ℕ)
    (theta coefficient : ℚ) : List Node × List RepCall :=
  match r with
  | .mk rmass cx cy rsize idxs subs =>
    if idxs.length < 2 then
      (updatePair sq coefficient false st i (idxs.getD 0 0),
       [RepCall.pair i (idxs.getD 0 0)])
    else
      let n := st.getD i Node.zero
      let distance := sq ((n.x - cx) ^ 2 + (n.y - cy) ^ 2)
      if rsize < distance * theta then
        (st.set i (linRepulsion_region (st.getD i Node.zero)
            (Region.mk rmass cx cy rsize idxs subs) coefficient),
         [RepCall.region i cx cy])
      else
        applyForceListAux sq st subs i theta coefficient

/-- The loop over subregions in Region.applyForce, threading the shared
node list left to right. -/
def applyForceListAux (sq : ℚ → ℚ) (st : List Node) (subs : List Region)
    (i : ℕ) (theta coefficient : ℚ) : List Node × List RepCall :=
  match subs with
  | [] => (st, [])
  | s :: rest =>
    let out := applyForceAux sq st s i theta coefficient
    let out2 := applyForceListAux sq out.1 rest i theta coefficient
    (out2.1, out.2 ++ out2.2)

end

/-- The node-list result of a Region.applyForce call. -/
def applyForceState (sq : ℚ → ℚ) (st : List Node) (r : Region) (i : ℕ)
    (theta coefficient : ℚ) : List Node :=
  (applyForceAux sq st r i theta coefficient).1

/-- The kernel invocations of a Region.applyForce call, in order. -/
def applyForceTrace (sq : ℚ → ℚ) (st : List Node) (r : Region) (i : ℕ)
    (theta coefficient : ℚ) : List RepCall :=
  (applyForceAux sq st r i theta coefficient).2

/-- Region.applyForceOnNodes: one applyForce query per node index. -/
def applyForceOnNodes (sq : ℚ → ℚ) (st : List Node) (r : Region)
    (theta coefficient : ℚ) : List Node :=
  (List.range st.length).foldl
    (fun acc i => applyForceState sq acc r i theta coefficient) st

/-- The global swinging / effective traction accumulation loop shared by
the main loop of ForceAtlas2.forceatlas2 and by
fa2util.adjustSpeedAndApplyForces. -/
def computeSwingTraction (sq : ℚ → ℚ) (nodes : List Node) : ℚ × ℚ :=
  nodes.foldl (fun acc n =>
    (acc.1 + n.mass * sq ((n.old_dx - n.dx) * (n.old_dx - n.dx)
        + (n.old_dy - n.dy) * (n.old_dy - n.dy)),
     acc.2 + (1/2 : ℚ) * n.mass * sq ((n.old_dx + n.dx) * (n.old_dx + n.dx)
        + (n.old_dy + n.dy) * (n.old_dy + n.dy))))
    (0, 0)

/-- The speed/speedEfficiency update inlined in the main loop of
ForceAtlas2.forceatlas2 (lines 265-294).  Note the absence of any zero
test before the divisions by totalEffectiveTraction and totalSwinging:
Python raises ZeroDivisionError there.  Returns (speed, speedEfficiency). -/
def speedControlInline (sq : ℚ → ℚ) (jitterTolerance : ℚ) (nNodes : ℕ)
    (totalSwinging totalEffectiveTraction speed speedEfficiency : ℚ) :
    Except String (ℚ × ℚ) := do
  let estimatedOptimalJitterTolerance := (1/20 : ℚ) * sq (nNodes : ℚ)   -- .05 in the source
  let minJT := sq estimatedOptimalJitterTolerance
  let maxJT : ℚ := 10
  let innerJT ← pydiv (estimatedOptimalJitterTolerance * totalEffectiveTraction)
    ((nNodes : ℚ) * (nNodes : ℚ))
  let jt0 := jitterTolerance * max minJT (min maxJT innerJT)
  let minSpeedEfficiency : ℚ := 1/20   -- 0.05 in the source
  let ratio ← pydiv totalSwinging totalEffectiveTraction
  let se1 := if 2 < ratio then
      (if minSpeedEfficiency < speedEfficiency then speedEfficiency * (1/2)   -- *= .5 in the source
       else speedEfficiency)
    else speedEfficiency
  let jt := if 2 < ratio then max jt0 jitterTolerance else jt0
  let targetSpeed ← pydiv (jt * se1 * totalEffectiveTraction) totalSwinging
  let se2 := if jt * totalEffectiveTraction < totalSwinging then
      (if minSpeedEfficiency < se1 then se1 * (7/10) else se1)
    else if speed < 1000 then se1 * (13/10) else se1
  let maxRise : ℚ := 1/2   -- .5 in the source
  let speed2 := speed + min (targetSpeed - speed) (maxRise * speed)
  return (speed2, se2)

/-- The speed/speedEfficiency update of fa2util.adjustSpeedAndApplyForces
(lines 285-317).  Unlike the inlined copy in the main loop, it guards the
targetSpeed division: when totalSwinging is exactly 0, targetSpeed is
float('inf'), modelled by none.  The ratio division at the erratic test
is unguarded in both versions.  In the speed update, min(inf - speed,
maxRise * speed) is maxRise * speed. -/
def speedControlUtil (sq : ℚ → ℚ) (jitterTolerance : ℚ) (nNodes : ℕ)
    (totalSwinging totalEffectiveTraction speed speedEfficiency : ℚ) :
    Except String (ℚ × ℚ) := do
  let estimatedOptimalJitterTolerance := (1/20 : ℚ) * sq (nNodes : ℚ)   -- .05 in the source
  let minJT := sq estimatedOptimalJitterTolerance
  let maxJT : ℚ := 10
  let innerJT ← pydiv (estimatedOptimalJitterTolerance * totalEffectiveTraction)
    ((nNodes : ℚ) * (nNodes : ℚ))
  let jt0 := jitterTolerance * max minJT (min maxJT innerJT)
  let minSpeedEfficiency : ℚ := 1/20   -- 0.05 in the source
  let ratio ← pydiv totalSwinging totalEffectiveTraction
  let se1 := if 2 < ratio then
      (if minSpeedEfficiency < speedEfficiency then speedEfficiency * (1/2)   -- *= .5 in the source
       else speedEfficiency)
    else speedEfficiency
  let jt := if 2 < ratio then max jt0 jitterTolerance else jt0
  let targetSpeed : Option ℚ := if totalSwinging = 0 then none
    else some (jt * se1 * totalEffectiveTraction / totalSwinging)
  let se2 := if jt * totalEffectiveTraction < totalSwinging then
      (if minSpeedEfficiency < se1 then se1 * (7/10) else se1)
    else if speed < 1000 then se1 * (13/10) else se1
  let maxRise : ℚ := 1/2   -- .5 in the source
  let speed2 := match targetSpeed with
    | none => speed + maxRise * speed
    | some t => speed + min (t - speed) (maxRise * speed)
  return (speed2, se2)

/-- The per-node damped position update at the end of each iteration
(anticollision is never enabled by the driver).  The denominator
1 + sqrt(speed * swinging) is at least 1 for the actual square root, so
total division is faithful here. -/
def applyForcesStep (sq : ℚ → ℚ) (speed : ℚ) (nodes : List Node) : List Node :=
  nodes.map fun n =>
    let swinging := n.mass * sq ((n.old_dx - n.dx) * (n.old_dx - n.dx)
      + (n.old_dy - n.dy) * (n.old_dy - n.dy))
    let factor := speed / (1 + sq (speed * swinging))
    { n with x := n.x + n.dx * factor, y := n.y + n.dy * factor }

/-- The snapshot/reset loop at the top of each iteration. -/
def resetStep (nodes : List Node) : List Node :=
  nodes.map fun n => { n with old_dx := n.dx, old_dy := n.dy, dx := 0, dy := 0 }

/-- The symmetry test numpy.all(G.T == G) over an n x n matrix. -/
def isSymmetric (n : ℕ) (G : ℕ → ℕ → ℚ) : Bool :=
  (List.range n).all fun i => (List.range n).all fun j => decide (G j i = G i j)

/-- Initial position of node i: the supplied array entry, or two draws
from the random stream when no positions are supplied. -/
def initNodePos (pos : Option (ℕ → ℚ × ℚ)) (rng : ℕ → ℚ) (i : ℕ) : ℚ × ℚ :=
  match pos with
  | some p => p i
  | none => (rng (2 * i), rng (2 * i + 1))

/-- Node construction in ForceAtlas2.init: mass is 1 + the number of
nonzero entries of row i (count_nonzero for dense, len(G.rows[i]) for
sparse — the same count), forces start at 0. -/
def fa2nodes (n : ℕ) (G : ℕ → ℕ → ℚ) (pos : Option (ℕ → ℚ × ℚ))
    (rng : ℕ → ℚ) : List Node :=
  (List.range n).map fun i =>
    { mass := 1 + ((List.range n).countP fun j => decide (G i j ≠ 0))
      old_dx := 0, old_dy := 0, dx := 0, dy := 0
      x := (initNodePos pos rng i).1, y := (initNodePos pos rng i).2
      size := 0 }

/-- Edge construction in ForceAtlas2.init: the nonzero entries of G in
row-major order, keeping only node1 < node2 (duplicates and self-loops
skipped). -/
def fa2edges (n : ℕ) (G : ℕ → ℕ → ℚ) : List Edge :=
  (List.range n).flatMap fun i => (List.range n).flatMap fun j =>
    if G i j ≠ 0 ∧ i < j then [⟨i, j, G i j⟩] else []

/-- The assertion message of the dense symmetry check in ForceAtlas2.init. -/
def symmetryMsg : String :=
  "G is not symmetric.  Currently only undirected graphs are supported"

/-- ForceAtlas2.init: squareness holds by construction here (one n indexes
rows and columns).  A dense matrix is additionally checked for symmetry;
the sparse branch performs no symmetry check.  On success the node and
edge lists are built. -/
def fa2init (isSparse : Bool) (n : ℕ) (G : ℕ → ℕ → ℚ)
    (pos : Option (ℕ → ℚ × ℚ)) (rng : ℕ → ℚ) :
    Except String (List Node × List Edge) :=
  if isSparse then
    .ok (fa2nodes n G pos rng, fa2edges n G)
  else
    if isSymmetric n G then .ok (fa2nodes n G pos rng, fa2edges n G)
    else .error symmetryMsg

/-- The configuration surface of the ForceAtlas2 constructor (linLogMode
and adjustSizes are asserted False there and never reach the loop). -/
structure FAConfig where
  outboundAttractionDistribution : Bool
  edgeWeightInfluence : ℚ
  jitterTolerance : ℚ
  barnesHutOptimize : Bool
  barnesHutTheta : ℚ
  scalingCoeff : ℚ   -- scalingRatio in the source
  strongGravityMode : Bool
  gravity : ℚ

/-- The constructor defaults of ForceAtlas2. -/
def cfgDefault : FAConfig :=
  { outboundAttractionDistribution := false
    edgeWeightInfluence := 1
    jitterTolerance := 1
    barnesHutOptimize := false
    barnesHutTheta := 6/5   -- 1.2 in the source
    scalingCoeff := 2
    strongGravityMode := false
    gravity := 1 }

/-- One iteration of the main loop (goAlgo): snapshot and reset forces,
optionally rebuild the Barnes-Hut tree and query it per node (single
threaded branch), or brute-force repulsion; then gravity, attraction, the
inlined speed control, and the damped position update.  State is
(nodes, speed, speedEfficiency). -/
def goAlgo (sq : ℚ → ℚ) (powf : ℚ → ℚ → ℚ) (cfg : FAConfig)
    (edges : List Edge) (outboundAttCompensation : ℚ)
    (state : List Node × ℚ × ℚ) : Except String (List Node × ℚ × ℚ) := do
  let nodes0 := resetStep state.1
  let nodes1 :=
    if cfg.barnesHutOptimize then
      applyForceOnNodes sq nodes0
        (buildRegion sq nodes0 (List.range nodes0.length))
        cfg.barnesHutTheta cfg.scalingCoeff
    else
      apply_repulsion sq cfg.scalingCoeff nodes0
  let nodes2 := apply_gravity sq nodes1 cfg.gravity cfg.strongGravityMode
  let nodes3 := apply_attraction sq powf nodes2 edges
    cfg.outboundAttractionDistribution outboundAttCompensation
    cfg.edgeWeightInfluence
  let stats := computeSwingTraction sq nodes3
  let speeds ← speedControlInline sq cfg.jitterTolerance nodes3.length
    stats.1 stats.2 state.2.1 state.2.2
  return (applyForcesStep sq speeds.1 nodes3, speeds.1, speeds.2)

/-- range(0, iterations) of goAlgo in the Except monad. -/
def iterateExcept (f : α → Except String α) : ℕ → α → Except String α
  | 0, a => .ok a
  | k + 1, a => do iterateExcept f k (← f a)

/-- ForceAtlas2.forceatlas2: init, the outbound attraction compensation
(mean mass when dissuade-hubs is on), the main loop, and the final list
of (x, y) tuples in input order. -/
def forceatlas2 (sq : ℚ → ℚ) (powf : ℚ → ℚ → ℚ) (cfg : FAConfig)
    (isSparse : Bool) (n : ℕ) (G : ℕ → ℕ → ℚ) (pos : Option (ℕ → ℚ × ℚ))
    (iterations : ℕ) (rng : ℕ → ℚ) : Except String (List (ℚ × ℚ)) := do
  let ne ← fa2init isSparse n G pos rng
  let outboundAttCompensation := if cfg.outboundAttractionDistribution then
      (ne.1.map Node.mass).sum / (ne.1.length : ℚ)
    else 1
  let final ← iterateExcept
    (goAlgo sq powf cfg ne.2 outboundAttCompensation) iterations (ne.1, 1, 1)
  return final.1.map fun nd => (nd.x, nd.y)

/-- The constant-zero random stream used by concrete witnesses. -/
def rng0 : ℕ → ℚ := fun _ => 0

/-! Concrete inputs used by witnesses and counterexamples. -/

/-- A 2 x 2 asymmetric adjacency matrix: one directed entry 0 -> 1. -/
def Gasym : ℕ → ℕ → ℚ := fun i j => if i = 0 ∧ j = 1 then 1 else 0

/-- Initial positions (0,0) and (4,0). -/
def posW : ℕ → ℚ × ℚ := fun i => if i = 0 then (0, 0) else (4, 0)

/-- Two nodes of mass 1 at (0,0) and (4,0). -/
def st6 : List Node :=
  [{ mass := 1, old_dx := 0, old_dy := 0, dx := 0, dy := 0, x := 0, y := 0, size := 0 },
   { mass := 1, old_dx := 0, old_dy := 0, dx := 0, dy := 0, x := 4, y := 0, size := 0 }]

/-- One node of mass 1 at the origin. -/
def stC4 : List Node :=
  [{ mass := 1, old_dx := 0, old_dy := 0, dx := 0, dy := 0, x := 0, y := 0, size := 0 }]

/-- The node built by init for a 1 x 1 zero matrix with position (0,0). -/
def nodeO : Node :=
  { mass := 1, old_dx := 0, old_dy := 0, dx := 0, dy := 0, x := 0, y := 0, size := 0 }

/-- Two coincident nodes of mass 1 at (1,2). -/
def st8 : List Node :=
  [{ mass := 1, old_dx := 0, old_dy := 0, dx := 0, dy := 0, x := 1, y := 2, size := 0 },
   { mass := 1, old_dx := 0, old_dy := 0, dx := 0, dy := 0, x := 1, y := 2, size := 0 }]

/-! Helper lemmas. -/

/-- An additive foldl accumulation is the sum of the mapped list. -/
theorem foldl_add_eq_sum (f : ℕ → ℚ) (l : List ℕ) (a : ℚ) :
    l.foldl (fun acc i => acc + f i) a = a + (l.map f).sum := by
  induction l generalizing a with
  | nil => simp
  | cons x xs ih => simp [ih, add_assoc]

/-- Writing back the value already stored at an index is the identity. -/
theorem set_getD_self (l : List Node) (i : ℕ) (d : Node) :
    l.set i (l[i]?.getD d) = l := by
  induction l generalizing i with
  | nil => simp
  | cons x xs ih =>
    cases i with
    | zero => simp
    | succ k => simp [ih]

/-- A Region built over one index keeps every constructor default and has
no subregions. -/
theorem buildRegion_singleton (sq : ℚ → ℚ) (st : List Node) (i : ℕ) :
    buildRegion sq st [i] = Region.mk 0 0 0 0 [i] [] := by
  unfold buildRegion
  norm_num

/-- applyForce on a singleton leaf always invokes linRepulsion against the
leaf's node, whatever the query index. -/
theorem applyForceAux_leaf (sq : ℚ → ℚ) (st : List Node) (j i : ℕ)
    (theta coefficient : ℚ) (m cx cy sz : ℚ) :
    applyForceAux sq st (Region.mk m cx cy sz [j] []) i theta coefficient
      = (updatePair sq coefficient false st i j, [RepCall.pair i j]) := by
  unfold applyForceAux
  norm_num [List.getD]

/-- The exact square root of 4. -/
theorem sqrtQ_four : sqrtQ 4 = 2 := by with_unfolding_all rfl

/-- The tree over st6: root of mass 2 centered at (2,0) with the two
singleton leaves. -/
theorem buildRegion_st6 : buildRegion sqrtQ st6 [0, 1]
    = Region.mk 2 2 0 4 [0, 1]
        [Region.mk 0 0 0 0 [0] [], Region.mk 0 0 0 0 [1] []] := by
  unfold buildRegion
  norm_num [st6, Node.zero, List.getD, sqrtQ, natSqrt, List.filter, List.foldl,
    List.range, buildRegion_singleton]

/-- strongGravity with the default coefficient 0 leaves the node intact. -/
theorem strongGravity_zero_coefficient (g : ℚ) (n : Node) :
    strongGravity g 0 n = n := by
  unfold strongGravity
  by_cases h : n.x ≠ 0 ∧ n.y ≠ 0
  · simp [h]
  · simp [h]

/-! Claim theorems. -/

/-- Claim C1.  The claim states that under strongGravityMode every node
with both coordinates nonzero receives a force toward the origin of
magnitude proportional to mass * g with a nonzero constant.  In the code,
apply_gravity calls strongGravity(n, gravity) with the coefficient left
at its Python default 0, so the factor is 0 * mass * g = 0 and the node
is returned with dx, dy unchanged: strong gravity applies no force to any
node whatsoever, contradicting the claim, the spec and the kernel's own
doc comment. -/
theorem C1_strong_gravity_applies_no_force (sq : ℚ → ℚ) (nodes : List Node)
    (gravity : ℚ) :
    apply_gravity sq nodes gravity true = nodes := by
  unfold apply_gravity
  simp only [if_true]
  induction nodes with
  | nil => rfl
  | cons n rest ih => simp [strongGravity_zero_coefficient, ih]

/-- Claim C2.  On a graph with a single node at the origin all forces are
zero, so totalSwinging = totalEffectiveTraction = 0 in the first
iteration.  The main loop of forceatlas2 then divides by them without any
zero test and raises ZeroDivisionError (first conjunct: the full driver
propagates the error; no positions are produced).  The third conjunct
isolates the slip: the inlined controller errors whenever totalSwinging
is 0, even with nonzero traction, whereas the repository's own
fa2util.adjustSpeedAndApplyForces (second conjunct) takes the documented
targetSpeed = infinity branch on the very same inputs and completes. -/
theorem C2_main_loop_zero_swinging_zerodivision :
    forceatlas2 sqrtQ powQ cfgDefault false 1 (fun _ _ => 0)
        (some fun _ => (0, 0)) 1 rng0 = .error "ZeroDivisionError"
    ∧ speedControlUtil sqrtQ 1 1 0 1 1 1 = .ok (3/2, 13/10)
    ∧ speedControlInline sqrtQ 1 1 0 1 1 1 = .error "ZeroDivisionError" := by
  refine ⟨?_, by with_unfolding_all rfl, by with_unfolding_all rfl⟩
  have hinit : fa2init false 1 (fun _ _ => (0 : ℚ)) (some fun _ => ((0 : ℚ), (0 : ℚ))) rng0
      = .ok ([nodeO], []) := by with_unfolding_all rfl
  have hgo : ∀ compensation : ℚ, goAlgo sqrtQ powQ cfgDefault [] compensation ([nodeO], 1, 1)
      = .error "ZeroDivisionError" := fun _ => by with_unfolding_all rfl
  simp only [forceatlas2, hinit, bind, Except.bind, iterateExcept, hgo]

/-- The nodes built by init for Gasym (masses 2 and 1) at posW. -/
def stA : List Node :=
  [{ mass := 2, old_dx := 0, old_dy := 0, dx := 0, dy := 0, x := 0, y := 0, size := 0 },
   { mass := 1, old_dx := 0, old_dy := 0, dx := 0, dy := 0, x := 4, y := 0, size := 0 }]

/-- The single edge built by init for Gasym. -/
def eA : List Edge := [{ node1 := 0, node2 := 1, weight := 1 }]

/-- The state after one iteration of the sparse Gasym run. -/
def stA2 : List Node :=
  [{ mass := 2, old_dx := 0, old_dy := 0, dx := 3, dy := 0, x := 1/4, y := 0, size := 0 },
   { mass := 1, old_dx := 0, old_dy := 0, dx := -4, dy := 0, x := 15/4, y := 0, size := 0 }]

/-- Claim C3, counterexample.  The claim asserts that every square but
asymmetric adjacency matrix, dense or sparse, is rejected before any
simulation work.  The sparse branch of init performs no symmetry check:
the asymmetric matrix Gasym is accepted, a full iteration runs, and
positions are returned. -/
theorem C3_counterexample_sparse_asymmetric_accepted :
    Gasym 0 1 ≠ Gasym 1 0
    ∧ forceatlas2 sqrtQ powQ cfgDefault true 2 Gasym (some posW) 1 rng0
        = .ok [(1/4, 0), (15/4, 0)] := by
  constructor
  · norm_num [Gasym]
  · have hinit : fa2init true 2 Gasym (some posW) rng0 = .ok (stA, eA) := by
      with_unfolding_all rfl
    have hrun : iterateExcept (goAlgo sqrtQ powQ cfgDefault eA 1) 1 (stA, 1, 1)
        = .ok (stA2, 1/8, 7/10) := by
      with_unfolding_all rfl
    simp only [forceatlas2, hinit, bind, Except.bind]
    rw [show (if cfgDefault.outboundAttractionDistribution = true then
        (List.map Node.mass stA).sum / (stA.length : ℚ) else 1) = 1 from by
      with_unfolding_all rfl]
    rw [hrun]
    with_unfolding_all rfl

/-- Claim C3, amended.  A dense (ndarray) square matrix that is not
symmetric fails the init assertion before any node or edge is built: the
whole run returns the validation error and no iteration is executed and
no positions are produced.  A sparse matrix is accepted without any
symmetry check (see the counterexample). -/
theorem C3_dense_asymmetric_fails_fast (sq : ℚ → ℚ) (powf : ℚ → ℚ → ℚ)
    (cfg : FAConfig) (n : ℕ) (G : ℕ → ℕ → ℚ) (pos : Option (ℕ → ℚ × ℚ))
    (iterations : ℕ) (rng : ℕ → ℚ) (h : isSymmetric n G = false) :
    forceatlas2 sq powf cfg false n G pos iterations rng = .error symmetryMsg := by
  simp only [forceatlas2, fa2init, Bool.false_eq_true, if_false, h, bind, Except.bind]

/-- Witness for the amended C3 theorem at the concrete matrix Gasym. -/
theorem C3_dense_asymmetric_fails_fast_witness :
    isSymmetric 2 Gasym = false
    ∧ forceatlas2 sqrtQ powQ cfgDefault false 2 Gasym (some posW) 1 rng0
        = .error symmetryMsg :=
  ⟨by with_unfolding_all rfl,
   C3_dense_asymmetric_fails_fast _ _ _ _ _ _ _ _ (by with_unfolding_all rfl)⟩

/-- Claim C4, counterexample.  The claim requires a Region over exactly
one member node to carry that node's mass.  updateMassAndGeometry only
runs its accumulation when len(nodes) > 1, so a singleton Region keeps
the constructor default mass 0, not the member's mass 1. -/
theorem C4_counterexample_singleton_region_mass :
    (buildRegion sqrtQ stC4 [0]).mass
      ≠ (([0] : List ℕ).map fun i => (stC4.getD i Node.zero).mass).sum := by
  unfold buildRegion
  norm_num [Region.mass, stC4]

/-- Claim C4, amended.  For a Region over two or more member nodes,
updateMassAndGeometry accumulates exactly the sum of the member masses;
in particular the root Region over the full node set carries the total
node mass.  A Region over one member (or none) keeps the constructor
default mass 0. -/
theorem C4_region_mass_eq_sum (sq : ℚ → ℚ) (st : List Node) (idxs : List ℕ)
    (h : 1 < idxs.length) :
    (buildRegion sq st idxs).mass
      = (idxs.map fun i => (st.getD i Node.zero).mass).sum := by
  unfold buildRegion
  rw [dif_pos h]
  simp only [Region.mass]
  rw [foldl_add_eq_sum]
  simp

/-- Witness for the amended C4 theorem on a two-node region. -/
theorem C4_region_mass_eq_sum_witness :
    1 < ([0, 1] : List ℕ).length
    ∧ (buildRegion sqrtQ st6 [0, 1]).mass
        = (([0, 1] : List ℕ).map fun i => (st6.getD i Node.zero).mass).sum :=
  ⟨by norm_num, C4_region_mass_eq_sum sqrtQ st6 [0, 1] (by norm_num)⟩

/-- Claim C5, counterexample.  The claim asserts speedEfficiency >= 0.05
after every update.  The code multiplies by 0.5 or 0.7 whenever the
current value exceeds 0.05, so the product can land below 0.05.  Three
consecutive erratic iterations of the controller (statistics swinging 3,
traction 1 on a 4-node graph), starting from the initial speed 1 and
speedEfficiency 1, leave speedEfficiency at 0.042875 < 0.05. -/
theorem C5_counterexample_floor_violated :
    (do
      let s1 ← speedControlInline sqrtQ 1 4 3 1 1 1
      let s2 ← speedControlInline sqrtQ 1 4 3 1 s1.1 s1.2
      speedControlInline sqrtQ 1 4 3 1 s2.1 s2.2 : Except String (ℚ × ℚ))
      = .ok (49/2400, 343/8000) ∧ (343/8000 : ℚ) < 1/20 := by
  constructor
  · have h1 : speedControlInline sqrtQ 1 4 3 1 1 1 = .ok (1/6, 7/20) := by
      with_unfolding_all rfl
    have h2 : speedControlInline sqrtQ 1 4 3 1 (1/6) (7/20) = .ok (7/120, 49/400) := by
      with_unfolding_all rfl
    have h3 : speedControlInline sqrtQ 1 4 3 1 (7/120) (49/400)
        = .ok (49/2400, 343/8000) := by
      with_unfolding_all rfl
    simp only [bind, Except.bind, h1, h2, h3]
  · norm_num

/-- Claim C5, amended.  The controller's decay steps fire only when the
current speedEfficiency exceeds 0.05, so the true invariant is the weaker
bound speedEfficiency > 0.025 (= 0.05 * 0.5): every completed update of
the inlined controller preserves it, but the claimed floor of 0.05 can be
undershot by a single halving (see the counterexample). -/
theorem C5_speedEfficiency_lower_bound (sq : ℚ → ℚ) (jtol : ℚ) (nN : ℕ)
    (ts tet speed se : ℚ) (h : 1/40 < se) (out : ℚ × ℚ)
    (hrun : speedControlInline sq jtol nN ts tet speed se = .ok out) :
    1/40 < out.2 := by
  simp only [speedControlInline, pydiv, bind, Except.bind] at hrun
  split at hrun
  · exact absurd hrun (by simp)
  · split at hrun
    · exact absurd hrun (by simp)
    · split at hrun
      · exact absurd hrun (by simp)
      · simp only [pure, Except.pure, Except.ok.injEq] at hrun
        subst hrun
        simp only []
        split_ifs <;> linarith

/-- Witness for the amended C5 theorem: one completed erratic update from
speedEfficiency 1 lands at 7/20, still above 1/40. -/
theorem C5_speedEfficiency_lower_bound_witness :
    (1 : ℚ)/40 < 1 ∧ (1 : ℚ)/40 < 7/20 :=
  ⟨by norm_num,
   C5_speedEfficiency_lower_bound sqrtQ 1 4 3 1 1 1 (by norm_num) (1/6, 7/20)
     (by with_unfolding_all rfl)⟩

/-- Claim C9.  When an explicit initial position array is supplied, the
random stream is never consulted: two runs with the same matrix, the same
positions, the same configuration and the same iteration count, but
arbitrary different random streams, return identical results.  The engine
is a pure function of its other inputs. -/
theorem C9_deterministic_with_positions (sq : ℚ → ℚ) (powf : ℚ → ℚ → ℚ)
    (cfg : FAConfig) (isSparse : Bool) (n : ℕ) (G : ℕ → ℕ → ℚ)
    (p : ℕ → ℚ × ℚ) (iterations : ℕ) (rng rng' : ℕ → ℚ) :
    forceatlas2 sq powf cfg isSparse n G (some p) iterations rng
      = forceatlas2 sq powf cfg isSparse n G (some p) iterations rng' := rfl

/-- The inner repulsion loop visits exactly the first j nodes. -/
theorem repulsionInnerTrace_eq_take (n1 : Node) (l : List Node) (j : ℕ) :
    repulsionInnerTrace n1 l j = (l.take j).map fun n2 => (n1, n2) := by
  induction l generalizing j with
  | nil => cases j <;> rfl
  | cons x xs ih =>
    cases j with
    | zero => rfl
    | succ k => simp [repulsionInnerTrace, ih]

/-- The outer repulsion loop, started at counter i, enumerates its
remaining nodes from i. -/
theorem repulsionOuterTrace_eq (all rest : List Node) (i : ℕ) :
    repulsionOuterTrace all rest i
      = (rest.enumFrom i).flatMap fun p => (all.take p.1).map fun n2 => (p.2, n2) := by
  induction rest generalizing i with
  | nil => rfl
  | cons x xs ih =>
    simp [repulsionOuterTrace, repulsionInnerTrace_eq_take, List.enumFrom, ih]

/-- Claim C6, counterexample.  The claim asserts that a tree traversal
started at the root never invokes the repulsion kernel on the singleton
leaf containing exactly the querying node.  On the two-node tree over st6
(nodes at (0,0) and (4,0)), the query for node 0 at the default theta 1.2
and scalingRatio 2 recurses into both leaves and the trace contains the
invocation pair (0, 0): the query node's own leaf IS queried (Python
calls linRepulsion(n, n) there). -/
theorem C6_counterexample_self_leaf_queried :
    RepCall.pair 0 0
      ∈ applyForceTrace sqrtQ st6 (buildRegion sqrtQ st6 [0, 1]) 0 (6/5) 2 := by
  rw [buildRegion_st6]
  unfold applyForceTrace
  unfold applyForceAux applyForceListAux
  norm_num [st6, Node.zero, List.getD, sqrtQ_four, applyForceAux_leaf, applyForceListAux]

/-- Claim C6, amended.  The traversal does reach the querying node's own
singleton leaf and invokes linRepulsion on it (see the counterexample),
but the invocation is harmless: querying the leaf whose only member is
the query node itself records the self pair and returns the node list
unchanged, because linRepulsion at zero distance is a no-op.  No
self-force is ever applied, although the claimed skip does not exist. -/
theorem C6_self_leaf_query_noop (sq : ℚ → ℚ) (st : List Node) (i : ℕ)
    (theta coefficient m cx cy sz : ℚ) (subs : List Region) (hsq : sq 0 = 0) :
    applyForceAux sq st (Region.mk m cx cy sz [i] subs) i theta coefficient
      = (st, [RepCall.pair i i]) := by
  unfold applyForceAux
  simp only [List.length_singleton, List.getD]
  norm_num
  unfold updatePair linRepulsion
  simp [hsq, List.set_set, set_getD_self]

/-- Witness for the amended C6 theorem: the self query on node 0's leaf
in st6 is a recorded no-op. -/
theorem C6_self_leaf_query_noop_witness :
    sqrtQ 0 = 0
    ∧ applyForceAux sqrtQ st6 (Region.mk 0 0 0 0 [0] []) 0 (6/5) 2
        = (st6, [RepCall.pair 0 0]) :=
  ⟨by with_unfolding_all rfl,
   C6_self_leaf_query_noop sqrtQ st6 0 (6/5) 2 0 0 0 0 []
     (by with_unfolding_all rfl)⟩

/-- Claim C7.  linRepulsion with anticollision off is antisymmetric: the
dx and dy increments written to n1 are the exact negations of those
written to n2, in every branch; and on coincident positions (squared
distance 0, so distance sq 0 = 0) it returns both nodes unchanged and
reaches no division. -/
theorem C7_linRepulsion_antisymmetric (sq : ℚ → ℚ) (n1 n2 : Node)
    (coefficient : ℚ) :
    ((linRepulsion sq n1 n2 coefficient false).1.dx - n1.dx
        = -((linRepulsion sq n1 n2 coefficient false).2.dx - n2.dx)
      ∧ (linRepulsion sq n1 n2 coefficient false).1.dy - n1.dy
        = -((linRepulsion sq n1 n2 coefficient false).2.dy - n2.dy))
    ∧ (n1.x = n2.x → n1.y = n2.y → sq 0 = 0 →
        linRepulsion sq n1 n2 coefficient false = (n1, n2)) := by
  constructor
  · simp only [linRepulsion]
    split_ifs <;> simp <;> ring
  · intro hx hy h0
    simp only [linRepulsion, hx, hy]
    simp [h0]

/-- Witness for C7 at a coincident concrete pair. -/
theorem C7_linRepulsion_antisymmetric_witness :
    nodeO.x = nodeO.x ∧ nodeO.y = nodeO.y ∧ sqrtQ 0 = 0
    ∧ linRepulsion sqrtQ nodeO nodeO 2 false = (nodeO, nodeO) :=
  ⟨rfl, rfl, by with_unfolding_all rfl,
   (C7_linRepulsion_antisymmetric sqrtQ nodeO nodeO 2).2 rfl rfl
     (by with_unfolding_all rfl)⟩

/-- Claim C8.  buildSubRegions is total: it is defined here by recursion
on the member count, which the checker accepts because every quadrant
that actually splits is strictly smaller and a quadrant equal to the
whole set is turned into singleton leaves without recursing on itself.
For nodes sharing one position (the degenerate duplicate-coordinate case,
with positive total mass so the mass center is that shared position), the
region over two or more indices splits into exactly one singleton leaf
per node, each leaf childless, and a region over at most one index has no
subregions at all: recursion stops at 0 or 1 nodes. -/
theorem C8_buildRegion_terminates_degenerate (sq : ℚ → ℚ) (st : List Node)
    (idxs : List ℕ) (px py : ℚ)
    (hx : ∀ i ∈ idxs, (st.getD i Node.zero).x = px)
    (hy : ∀ i ∈ idxs, (st.getD i Node.zero).y = py)
    (hm : 0 < (idxs.map fun i => (st.getD i Node.zero).mass).sum) :
    ((buildRegion sq st idxs).subregions
        = if idxs.length ≤ 1 then [] else idxs.map fun i => buildRegion sq st [i])
    ∧ ∀ r ∈ (buildRegion sq st idxs).subregions, r.subregions = [] := by
  by_cases h : 1 < idxs.length
  · have hmne : idxs.foldl (fun acc i => acc + (st.getD i Node.zero).mass) 0 ≠ 0 := by
      rw [foldl_add_eq_sum]; simpa using ne_of_gt hm
    have hsx : idxs.foldl (fun acc i => acc
          + (st.getD i Node.zero).x * (st.getD i Node.zero).mass) 0
        = px * idxs.foldl (fun acc i => acc + (st.getD i Node.zero).mass) 0 := by
      rw [foldl_add_eq_sum, foldl_add_eq_sum]
      simp only [zero_add]
      rw [List.map_congr_left (fun i hi => by rw [hx i hi])]
      simpa using List.sum_map_mul_left idxs (fun i => (st.getD i Node.zero).mass) px
    have hsy : idxs.foldl (fun acc i => acc
          + (st.getD i Node.zero).y * (st.getD i Node.zero).mass) 0
        = py * idxs.foldl (fun acc i => acc + (st.getD i Node.zero).mass) 0 := by
      rw [foldl_add_eq_sum, foldl_add_eq_sum]
      simp only [zero_add]
      rw [List.map_congr_left (fun i hi => by rw [hy i hi])]
      simpa using List.sum_map_mul_left idxs (fun i => (st.getD i Node.zero).mass) py
    have hpos : 0 < idxs.length := by omega
    rw [buildRegion.eq_def]
    rw [dif_pos h]
    simp only [Region.subregions, hsx, hsy, mul_div_cancel_right₀ _ hmne]
    have hfx : idxs.filter (fun i => decide ((st.getD i Node.zero).x < px)) = [] := by
      rw [List.filter_eq_nil_iff]
      intro a ha; rw [hx a ha]; simp
    have hfx2 : idxs.filter (fun i => !decide ((st.getD i Node.zero).x < px)) = idxs := by
      rw [List.filter_eq_self]
      intro a ha; rw [hx a ha]; simp
    have hfy : idxs.filter (fun i => decide ((st.getD i Node.zero).y < py)) = [] := by
      rw [List.filter_eq_nil_iff]
      intro a ha; rw [hy a ha]; simp
    have hfy2 : idxs.filter (fun i => !decide ((st.getD i Node.zero).y < py)) = idxs := by
      rw [List.filter_eq_self]
      intro a ha; rw [hy a ha]; simp
    simp only [hfx, hfx2, hfy, hfy2, List.filter_nil, List.length_nil, lt_irrefl,
      List.nil_append, List.append_nil, if_false, dif_neg, hpos, if_true]
    rw [dif_neg not_false]
    constructor
    · rw [if_neg (by omega)]
    · intro r hr
      simp only [List.mem_map] at hr
      obtain ⟨i, hi, rfl⟩ := hr
      rw [buildRegion_singleton]
  · rw [buildRegion.eq_def]
    rw [dif_neg h]
    constructor
    · rw [if_pos (by omega)]
      rfl
    · intro r hr
      simp [Region.subregions] at hr

/-- Witness for C8 on two coincident nodes at (1,2) of mass 1. -/
theorem C8_buildRegion_terminates_degenerate_witness :
    (∀ i ∈ ([0, 1] : List ℕ), (st8.getD i Node.zero).x = 1)
    ∧ (∀ i ∈ ([0, 1] : List ℕ), (st8.getD i Node.zero).y = 2)
    ∧ 0 < (([0, 1] : List ℕ).map fun i => (st8.getD i Node.zero).mass).sum
    ∧ (((buildRegion sqrtQ st8 [0, 1]).subregions
          = if ([0, 1] : List ℕ).length ≤ 1 then []
            else ([0, 1] : List ℕ).map fun i => buildRegion sqrtQ st8 [i])
        ∧ ∀ r ∈ (buildRegion sqrtQ st8 [0, 1]).subregions, r.subregions = []) :=
  ⟨by with_unfolding_all decide, by with_unfolding_all decide,
   by with_unfolding_all decide,
   C8_buildRegion_terminates_degenerate sqrtQ st8 [0, 1] 1 2
     (by with_unfolding_all decide) (by with_unfolding_all decide)
     (by with_unfolding_all decide)⟩

/-- Claim C10.  The brute-force repulsion driver invokes linRepulsion on
exactly the pairs (node at index i, node at index j) with j ranging over
0..i-1, once each and in order: the invocation trace equals the canonical
enumeration pairing each node with precisely the nodes before it.  In
particular every unordered pair of distinct indices occurs exactly once
and no node is ever paired with itself. -/
theorem C10_repulsion_covers_each_pair_once (nodes : List Node) :
    apply_repulsion_trace nodes
      = nodes.enum.flatMap fun p => (nodes.take p.1).map fun n2 => (p.2, n2) :=
  repulsionOuterTrace_eq nodes nodes 0

end FA2
